import Mathlib

/-!
# The Steam Link audio renderer (`app/streaming/audio/renderers/slaud.cpp`)

A shallow embedding of `SLAudioRenderer`: the renderer object is a record of its
five members, every member function is a function on that record which also
returns the list of backend and logging calls it made, in order.  What the
backend answers (`SLAudio_CreateContext`, `SLAudio_CreateStream`,
`SLAudio_BeginFrame`) is an argument of the function that makes the call.
Memory errors (`memcpy`/`memset` outside the region they are given, a null
destination) have no defined behaviour in the program, and a failed `SDL_assert`
stops a build that checks it and lets the copy run past the capacity in a build
that does not; the embedding returns `none` in these cases, so `some` is a call
that returned.  The members and `audioSize` are C `int`s and are modelled as
integers: in the states reached from the constructor the fill offset is 0 or
lies between 0 and the capacity, so the subtraction on line 77 is exact, and the
addition on line 79 is exact in a call that passes the assertion and the copy.
-/

/-- One byte of memory. -/
abbrev Byte := Fin 256

/-- A non-null handle handed out by the backend (`CSLAudioContext*`, `CSLAudioStream*`). -/
abbrev Handle := Nat

/-- The priorities of `SDL_log.h`. -/
inductive SDL_LogPriority where
  | SDL_LOG_PRIORITY_VERBOSE
  | SDL_LOG_PRIORITY_DEBUG
  | SDL_LOG_PRIORITY_INFO
  | SDL_LOG_PRIORITY_WARN
  | SDL_LOG_PRIORITY_ERROR
  | SDL_LOG_PRIORITY_CRITICAL
  deriving DecidableEq, Repr

/-- The backend's log levels.  `ESLAudioLog` is a C enum, so the callback can be handed any
integer; `unrecognized raw` stands for a value that is none of the four enumerators. -/
inductive ESLAudioLog where
  | k_ESLAudioLogError
  | k_ESLAudioLogWarning
  | k_ESLAudioLogInfo
  | k_ESLAudioLogDebug
  | unrecognized (raw : Int)
  deriving DecidableEq, Repr

/-- The calls the renderer makes on the backend library and on SDL's logger, with their
arguments.  A pointer argument is `none` for `nullptr`.  `SLAudio_BeginFrame` carries whether the
backend handed out a buffer; `SLAudio_SubmitFrame` carries the content of the borrowed buffer at
the moment of the call. -/
inductive Call where
  | SLAudio_SetLogFunction
  | SLAudio_CreateContext (result : Option Handle)
  | SLAudio_CreateStream (context : Option Handle) (sampleRate channelCount frameSize nBuffers : Int)
      (result : Option Handle)
  | SLAudio_BeginFrame (stream : Option Handle) (acquired : Bool)
  | SLAudio_SubmitFrame (stream : Option Handle) (frame : List Byte)
  | SLAudio_FreeStream (stream : Handle)
  | SLAudio_FreeContext (context : Handle)
  | SDL_LogError (message : String)
  | SDL_LogInfo (message : String)
  | SDL_LogMessage (priority : SDL_LogPriority) (format : String) (message : String)
  deriving DecidableEq, Repr

/-- The two fields of `OPUS_MULTISTREAM_CONFIGURATION` that `prepareForPlayback` reads. -/
structure OPUS_MULTISTREAM_CONFIGURATION where
  sampleRate : Int
  channelCount : Int
  deriving DecidableEq, Repr

/-- The members of `SLAudioRenderer`.  `m_AudioBuffer` is the pointer returned by
`SLAudio_BeginFrame` together with the bytes it points to (`none` is `nullptr`). -/
structure SLAudioRenderer where
  m_AudioContext : Option Handle
  m_AudioStream : Option Handle
  m_AudioBuffer : Option (List Byte)
  m_AudioBufferSize : Int
  m_AudioBufferBytesFilled : Int
  deriving DecidableEq, Repr

/-- `#define FRAMES_PER_SUBMISSION 4` -/
def FRAMES_PER_SUBMISSION : Int := 4

/-- `sizeof(short)` -/
def sizeof_short : Int := 2

/-- Conversion of an integer to a 32-bit C `int` (the value modulo `2^32`, taken in
`[-2^31, 2^31)`).  The product in `prepareForPlayback` is computed in `size_t` and stored in an
`int`; reducing modulo `2^32` once at the end gives the same value as reducing at every step. -/
def toInt32 (x : Int) : Int :=
  if x % 2 ^ 32 < 2 ^ 31 then x % 2 ^ 32 else x % 2 ^ 32 - 2 ^ 32

/-- `memcpy(&dst[offset], src, n)`: `n` is converted to `size_t`, so a negative `n` asks for more
bytes than any region holds; the copy is defined only when it stays inside both regions. -/
def memcpy (dst : List Byte) (offset : Int) (src : List Byte) (n : Int) : Option (List Byte) :=
  if 0 ≤ offset ∧ 0 ≤ n ∧ offset + n ≤ dst.length ∧ n ≤ src.length then
    some (dst.take offset.toNat ++ src.take n.toNat ++ dst.drop (offset.toNat + n.toNat))
  else
    none

/-- `memset(dst, c, n)`, defined only when the `n` bytes lie inside the region. -/
def memset (dst : List Byte) (c : Byte) (n : Int) : Option (List Byte) :=
  if 0 ≤ n ∧ n ≤ dst.length then
    some (List.replicate n.toNat c ++ dst.drop n.toNat)
  else
    none

/-- The constructor `SLAudioRenderer::SLAudioRenderer()`.  The initialiser list sets four
members; `m_AudioBufferSize` is left with the indeterminate value `indeterminate`. -/
def SLAudioRenderer_ctor (indeterminate : Int) : SLAudioRenderer × List Call :=
  ({ m_AudioContext := none
     m_AudioStream := none
     m_AudioBuffer := none
     m_AudioBufferSize := indeterminate
     m_AudioBufferBytesFilled := 0 },
   [Call.SLAudio_SetLogFunction])

/-- `SLAudioRenderer::prepareForPlayback`.  `SAMPLES_PER_FRAME` is a macro of the streaming
library's header and is taken as a parameter; `createContext` and `createStream` are what
`SLAudio_CreateContext()` and `SLAudio_CreateStream(...)` return when they are called. -/
def prepareForPlayback (SAMPLES_PER_FRAME : Int) (r : SLAudioRenderer)
    (opusConfig : OPUS_MULTISTREAM_CONFIGURATION)
    (createContext createStream : Option Handle) : SLAudioRenderer × List Call × Bool :=
  let r1 := { r with m_AudioContext := createContext }
  match createContext with
  | none =>
    (r1, [Call.SLAudio_CreateContext none,
          Call.SDL_LogError "SLAudio_CreateContext() failed"], false)
  | some _ =>
    let r2 := { r1 with
      m_AudioBufferSize :=
        toInt32 (SAMPLES_PER_FRAME * sizeof_short * opusConfig.channelCount
                  * FRAMES_PER_SUBMISSION) }
    let r3 := { r2 with m_AudioStream := createStream }
    let calls := [Call.SLAudio_CreateContext createContext,
                  Call.SLAudio_CreateStream r2.m_AudioContext opusConfig.sampleRate
                    opusConfig.channelCount r2.m_AudioBufferSize 1 createStream]
    match createStream with
    | none => (r3, calls ++ [Call.SDL_LogError "SLAudio_CreateStream() failed"], false)
    | some _ => (r3, calls ++ [Call.SDL_LogInfo "Using SLAudio renderer"], true)

/-- Lines 76-87 of `submitAudio`: the assertion (`none` when it fails), the copy at the fill
offset (`none` when the buffer pointer is null or the copy leaves a region), the advance of the
fill offset, and the submission of a full buffer.  Returns the new state and the calls made. -/
def accumulate (r : SLAudioRenderer) (audioBuffer : List Byte) (audioSize : Int) :
    Option (SLAudioRenderer × List Call) :=
  if audioSize ≤ r.m_AudioBufferSize - r.m_AudioBufferBytesFilled then
    match r.m_AudioBuffer with
    | none => none
    | some buf =>
      match memcpy buf r.m_AudioBufferBytesFilled audioBuffer audioSize with
      | none => none
      | some buf1 =>
        let r1 := { r with
          m_AudioBuffer := some buf1
          m_AudioBufferBytesFilled := r.m_AudioBufferBytesFilled + audioSize }
        if r1.m_AudioBufferBytesFilled = r1.m_AudioBufferSize then
          some ({ r1 with m_AudioBufferBytesFilled := 0 },
                [Call.SLAudio_SubmitFrame r1.m_AudioStream buf1])
        else
          some (r1, [])
  else
    none

/-- `SLAudioRenderer::submitAudio`.  `audioBuffer` is the memory behind the caller's pointer,
`beginFrame` is what `SLAudio_BeginFrame` returns if it is called (`none` for `nullptr`,
otherwise the region it points to). -/
def submitAudio (r : SLAudioRenderer) (audioBuffer : List Byte) (audioSize : Int)
    (beginFrame : Option (List Byte)) : Option (SLAudioRenderer × List Call × Bool) :=
  if r.m_AudioBufferBytesFilled = 0 then
    match beginFrame with
    | none =>
      some ({ r with m_AudioBuffer := none },
            [Call.SLAudio_BeginFrame r.m_AudioStream false,
             Call.SDL_LogError "SLAudio_BeginFrame() failed"], true)
    | some buf =>
      match accumulate { r with m_AudioBuffer := some buf } audioBuffer audioSize with
      | none => none
      | some (r1, calls) => some (r1, Call.SLAudio_BeginFrame r.m_AudioStream true :: calls, true)
  else
    match accumulate r audioBuffer audioSize with
    | none => none
    | some (r1, calls) => some (r1, calls, true)

/-- The destructor `SLAudioRenderer::~SLAudioRenderer()`: the state it leaves and the calls it
makes. -/
def SLAudioRenderer_dtor (r : SLAudioRenderer) : Option (SLAudioRenderer × List Call) :=
  let flushed : Option (SLAudioRenderer × List Call) :=
    if r.m_AudioBufferBytesFilled ≠ 0 then
      match r.m_AudioBuffer with
      | none => none
      | some buf =>
        match memset buf 0 r.m_AudioBufferSize with
        | none => none
        | some buf1 =>
          some ({ r with m_AudioBuffer := some buf1 },
                [Call.SLAudio_SubmitFrame r.m_AudioStream buf1])
    else
      some (r, [])
  match flushed with
  | none => none
  | some (r1, calls) =>
    let freeStream := match r1.m_AudioStream with
      | some stream => [Call.SLAudio_FreeStream stream]
      | none => []
    let freeContext := match r1.m_AudioContext with
      | some context => [Call.SLAudio_FreeContext context]
      | none => []
    some (r1, calls ++ freeStream ++ freeContext)

/-- `SLAudioRenderer::slLogCallback`: the priority chosen by the `switch`. -/
def slLogPriority (logLevel : ESLAudioLog) : SDL_LogPriority :=
  match logLevel with
  | ESLAudioLog.k_ESLAudioLogError => SDL_LogPriority.SDL_LOG_PRIORITY_ERROR
  | ESLAudioLog.k_ESLAudioLogWarning => SDL_LogPriority.SDL_LOG_PRIORITY_WARN
  | ESLAudioLog.k_ESLAudioLogInfo => SDL_LogPriority.SDL_LOG_PRIORITY_INFO
  | _ => SDL_LogPriority.SDL_LOG_PRIORITY_DEBUG

/-- `SLAudioRenderer::slLogCallback`: the one call it makes,
`SDL_LogMessage(SDL_LOG_CATEGORY_APPLICATION, priority, "SLAudio: %s", message)`.  `context` is
the opaque pointer the backend passes back. -/
def slLogCallback (context : Option Nat) (logLevel : ESLAudioLog) (message : String) : Call :=
  let _unused := context
  Call.SDL_LogMessage (slLogPriority logLevel) "SLAudio: %s" message

/-- One call of `submitAudio` as the caller and the backend see it: the caller's buffer and size,
and the backend's answer to `SLAudio_BeginFrame` should the call ask for a buffer. -/
structure SubmitCall where
  audioBuffer : List Byte
  audioSize : Int
  beginFrame : Option (List Byte)
  deriving DecidableEq, Repr

/-- A sequence of `submitAudio` calls made one after the other; the calls made on the backend
are collected in order. -/
def submitAll : SLAudioRenderer → List SubmitCall → Option (SLAudioRenderer × List Call)
  | r, [] => some (r, [])
  | r, c :: cs =>
    match submitAudio r c.audioBuffer c.audioSize c.beginFrame with
    | none => none
    | some (r1, calls, _) =>
      match submitAll r1 cs with
      | none => none
      | some (r2, rest) => some (r2, calls ++ rest)

/-- The buffers passed to `SLAudio_SubmitFrame` in a call trace, in order. -/
def submittedFrames : List Call → List (List Byte)
  | [] => []
  | Call.SLAudio_SubmitFrame _ frame :: rest => frame :: submittedFrames rest
  | _ :: rest => submittedFrames rest

/-- The bytes a call hands over: the first `audioSize` bytes behind the caller's pointer. -/
def SubmitCall.chunk (c : SubmitCall) : List Byte :=
  c.audioBuffer.take c.audioSize.toNat

/-- The sum of the sizes of a sequence of calls. -/
def cumulativeSize (calls : List SubmitCall) : Int :=
  (calls.map (fun c => c.audioSize)).sum

/-! ## Running sequences of calls -/

/-- The caller's contract along a sequence of calls that starts in state `r`: every size is at
least `lo`, does not exceed the remaining capacity `m_AudioBufferSize - m_AudioBufferBytesFilled`
of the state the call is made in, and does not exceed the memory behind the caller's pointer; and
the backend's contract: a buffer handed out by `SLAudio_BeginFrame` has the size the stream was
created with.  The state the next call is made in is the one `submitAudio` leaves. -/
def Fits (lo : Int) : SLAudioRenderer → List SubmitCall → Prop
  | _, [] => True
  | r, c :: cs =>
    lo ≤ c.audioSize
    ∧ c.audioSize ≤ r.m_AudioBufferSize - r.m_AudioBufferBytesFilled
    ∧ c.audioSize ≤ c.audioBuffer.length
    ∧ (∀ b, c.beginFrame = some b → (b.length : Int) = r.m_AudioBufferSize)
    ∧ (match submitAudio r c.audioBuffer c.audioSize c.beginFrame with
        | some (r1, _, _) => Fits lo r1 cs
        | none => True)

/-- The bytes of the partial buffer that have been filled so far. -/
def heldBytes (r : SLAudioRenderer) : List Byte :=
  match r.m_AudioBuffer with
  | some buf => buf.take r.m_AudioBufferBytesFilled.toNat
  | none => []

/-- What the specification says the backend is given: the chunks are appended in order to the
bytes held so far, and each time the held bytes reach the capacity they are handed over as one
frame and the next chunk starts a new one. -/
def specFrames (capacity : Int) : List Byte → List (List Byte) → List (List Byte)
  | _, [] => []
  | held, chunk :: chunks =>
    if ((held ++ chunk).length : Int) = capacity then
      (held ++ chunk) :: specFrames capacity [] chunks
    else
      specFrames capacity (held ++ chunk) chunks

/-- The single-slot discipline on a call trace.  `outstanding` tells whether a buffer has been
begun and not yet submitted; the result is `none` when a buffer is begun while one is
outstanding or a buffer is submitted while none is, and otherwise the flag at the end. -/
def slotRun : Bool → List Call → Option Bool
  | outstanding, [] => some outstanding
  | outstanding, Call.SLAudio_BeginFrame _ true :: rest =>
    if outstanding then none else slotRun true rest
  | outstanding, Call.SLAudio_SubmitFrame _ _ :: rest =>
    if outstanding then slotRun false rest else none
  | outstanding, _ :: rest => slotRun outstanding rest

/-- A renderer that holds a partial buffer holds one of the stream's size, and its fill offset
is not negative. -/
def WellFormed (r : SLAudioRenderer) : Prop :=
  0 ≤ r.m_AudioBufferBytesFilled
  ∧ (r.m_AudioBufferBytesFilled ≠ 0 →
      ∃ buf, r.m_AudioBuffer = some buf ∧ (buf.length : Int) = r.m_AudioBufferSize)

/-- The state after the constructor and a call of `prepareForPlayback`. -/
def prepared (SAMPLES_PER_FRAME indeterminate : Int) (opusConfig : OPUS_MULTISTREAM_CONFIGURATION)
    (createContext createStream : Option Handle) : SLAudioRenderer :=
  (prepareForPlayback SAMPLES_PER_FRAME (SLAudioRenderer_ctor indeterminate).1 opusConfig
    createContext createStream).1

/-- The region a call copies into: the buffer just obtained when none was held, the held one
otherwise. -/
def bufferInUse (r : SLAudioRenderer) (beginFrame : Option (List Byte)) : Option (List Byte) :=
  if r.m_AudioBufferBytesFilled = 0 then beginFrame else r.m_AudioBuffer

/-- The release calls of the destructor: the stream when it is held, then the context when it
is held. -/
def releaseCalls (r : SLAudioRenderer) : List Call :=
  (match r.m_AudioStream with
    | some stream => [Call.SLAudio_FreeStream stream]
    | none => [])
  ++ (match r.m_AudioContext with
    | some context => [Call.SLAudio_FreeContext context]
    | none => [])

/-! ## One call of `submitAudio` -/

theorem memcpy_eq_some (dst src : List Byte) (offset n : Int) (h0 : 0 ≤ offset) (hn : 0 ≤ n)
    (hdst : offset + n ≤ dst.length) (hsrc : n ≤ src.length) :
    memcpy dst offset src n
      = some (dst.take offset.toNat ++ src.take n.toNat ++ dst.drop (offset.toNat + n.toNat)) := by
  simp [memcpy, h0, hn, hdst, hsrc]

theorem memcpy_some_bounds (dst src out : List Byte) (offset n : Int)
    (h : memcpy dst offset src n = some out) :
    0 ≤ offset ∧ 0 ≤ n ∧ offset + n ≤ dst.length ∧ n ≤ src.length := by
  unfold memcpy at h
  split at h
  · assumption
  · exact absurd h (by simp)

/-- A call that respects the contract returns, and this is what it leaves and what it calls. -/
theorem submitAudio_step (r : SLAudioRenderer) (audioBuffer : List Byte) (audioSize : Int)
    (beginFrame : Option (List Byte)) (buf : List Byte)
    (h0 : 0 ≤ r.m_AudioBufferBytesFilled) (hn : 0 ≤ audioSize)
    (hfit : audioSize ≤ r.m_AudioBufferSize - r.m_AudioBufferBytesFilled)
    (hsrc : audioSize ≤ audioBuffer.length)
    (hbuf : bufferInUse r beginFrame = some buf)
    (hlen : (buf.length : Int) = r.m_AudioBufferSize) :
    submitAudio r audioBuffer audioSize beginFrame
      = some
          ({ r with
              m_AudioBuffer :=
                some (buf.take r.m_AudioBufferBytesFilled.toNat ++ audioBuffer.take audioSize.toNat
                  ++ buf.drop (r.m_AudioBufferBytesFilled.toNat + audioSize.toNat))
              m_AudioBufferBytesFilled :=
                if r.m_AudioBufferBytesFilled + audioSize = r.m_AudioBufferSize then 0
                else r.m_AudioBufferBytesFilled + audioSize },
           (if r.m_AudioBufferBytesFilled = 0 then [Call.SLAudio_BeginFrame r.m_AudioStream true]
            else [])
           ++ (if r.m_AudioBufferBytesFilled + audioSize = r.m_AudioBufferSize then
                [Call.SLAudio_SubmitFrame r.m_AudioStream
                  (buf.take r.m_AudioBufferBytesFilled.toNat ++ audioBuffer.take audioSize.toNat
                    ++ buf.drop (r.m_AudioBufferBytesFilled.toNat + audioSize.toNat))]
               else []),
           true) := by
  have hcopy := memcpy_eq_some buf audioBuffer r.m_AudioBufferBytesFilled audioSize h0 hn
    (by omega) hsrc
  unfold bufferInUse at hbuf
  by_cases hz : r.m_AudioBufferBytesFilled = 0
  · simp only [hz, if_true] at hbuf
    subst hbuf
    simp only [hz, zero_add, sub_zero] at hcopy hfit ⊢
    by_cases hfull : audioSize = r.m_AudioBufferSize
    · subst hfull
      simp [submitAudio, accumulate, hz, hcopy]
    · simp [submitAudio, accumulate, hz, hfit, hcopy, hfull]
  · simp only [hz, if_false] at hbuf
    by_cases hfull : r.m_AudioBufferBytesFilled + audioSize = r.m_AudioBufferSize
    · simp [submitAudio, accumulate, hz, hfit, hcopy, hfull, hbuf]
    · simp [submitAudio, accumulate, hz, hfit, hcopy, hfull, hbuf]

theorem heldBytes_of_inUse (r : SLAudioRenderer) (beginFrame : Option (List Byte))
    (buf : List Byte) (hbuf : bufferInUse r beginFrame = some buf) :
    heldBytes r = buf.take r.m_AudioBufferBytesFilled.toNat := by
  unfold bufferInUse at hbuf
  unfold heldBytes
  by_cases hz : r.m_AudioBufferBytesFilled = 0
  · cases hb : r.m_AudioBuffer <;> simp [hz]
  · simp only [hz, if_false] at hbuf
    simp [hbuf]

theorem copied_length (buf src : List Byte) (fill n : Int) (h0 : 0 ≤ fill) (hn : 0 ≤ n)
    (hdst : fill + n ≤ buf.length) (hsrc : n ≤ src.length) :
    (buf.take fill.toNat ++ src.take n.toNat ++ buf.drop (fill.toNat + n.toNat)).length
      = buf.length := by
  simp only [List.length_append, List.length_take, List.length_drop]
  omega

theorem copied_prefix_length (buf src : List Byte) (fill n : Int) (h0 : 0 ≤ fill) (hn : 0 ≤ n)
    (hdst : fill + n ≤ buf.length) (hsrc : n ≤ src.length) :
    ((buf.take fill.toNat ++ src.take n.toNat).length : Int) = fill + n := by
  simp only [List.length_append, List.length_take]
  omega

theorem copied_take (buf src : List Byte) (fill n : Int) (h0 : 0 ≤ fill) (hn : 0 ≤ n)
    (hdst : fill + n ≤ buf.length) (hsrc : n ≤ src.length) :
    (buf.take fill.toNat ++ src.take n.toNat ++ buf.drop (fill.toNat + n.toNat)).take
        (fill + n).toNat
      = buf.take fill.toNat ++ src.take n.toNat := by
  have hl : (buf.take fill.toNat ++ src.take n.toNat).length = (fill + n).toNat := by
    have := copied_prefix_length buf src fill n h0 hn hdst hsrc
    omega
  rw [← hl]
  exact List.take_left' rfl

theorem copied_full (buf src : List Byte) (fill n : Int) (h0 : 0 ≤ fill) (hn : 0 ≤ n)
    (hdst : fill + n = buf.length) :
    buf.take fill.toNat ++ src.take n.toNat ++ buf.drop (fill.toNat + n.toNat)
      = buf.take fill.toNat ++ src.take n.toNat := by
  have : buf.drop (fill.toNat + n.toNat) = [] := by
    apply List.drop_of_length_le
    omega
  rw [this, List.append_nil]

/-- What one call does when the contract holds: either no buffer could be obtained and nothing
changes, or the chunk is appended to the held bytes and a full buffer is handed over. -/
theorem submitAudio_fits (lo : Int) (hlo : 0 ≤ lo) (r : SLAudioRenderer) (c : SubmitCall)
    (cs : List SubmitCall) (hwf : WellFormed r) (hfits : Fits lo r (c :: cs)) :
    ∃ r1 t1, submitAudio r c.audioBuffer c.audioSize c.beginFrame = some (r1, t1, true)
      ∧ Fits lo r1 cs ∧ WellFormed r1
      ∧ r1.m_AudioBufferSize = r.m_AudioBufferSize
      ∧ r1.m_AudioStream = r.m_AudioStream
      ∧ r1.m_AudioContext = r.m_AudioContext
      ∧ r1.m_AudioBufferBytesFilled ≤ r.m_AudioBufferSize
      ∧ (0 < r.m_AudioBufferSize → r1.m_AudioBufferBytesFilled < r.m_AudioBufferSize)
      ∧ ((r.m_AudioBufferBytesFilled = 0 ∧ c.beginFrame = none
            ∧ r1.m_AudioBufferBytesFilled = 0
            ∧ t1 = [Call.SLAudio_BeginFrame r.m_AudioStream false,
                    Call.SDL_LogError "SLAudio_BeginFrame() failed"])
          ∨ ((r.m_AudioBufferBytesFilled = 0 → c.beginFrame ≠ none)
            ∧ r1.m_AudioBufferBytesFilled
                = (if r.m_AudioBufferBytesFilled + c.audioSize = r.m_AudioBufferSize then 0
                   else r.m_AudioBufferBytesFilled + c.audioSize)
            ∧ t1 = (if r.m_AudioBufferBytesFilled = 0 then
                      [Call.SLAudio_BeginFrame r.m_AudioStream true] else [])
                  ++ (if r.m_AudioBufferBytesFilled + c.audioSize = r.m_AudioBufferSize then
                        [Call.SLAudio_SubmitFrame r.m_AudioStream (heldBytes r ++ c.chunk)]
                      else [])
            ∧ (r.m_AudioBufferBytesFilled + c.audioSize ≠ r.m_AudioBufferSize →
                heldBytes r1 = heldBytes r ++ c.chunk)
            ∧ ((heldBytes r ++ c.chunk).length : Int)
                = r.m_AudioBufferBytesFilled + c.audioSize)) := by
  obtain ⟨hfill0, hheld⟩ := hwf
  simp only [Fits] at hfits
  obtain ⟨hlo1, hfit, hsrc, hbf, hrest⟩ := hfits
  have hn : 0 ≤ c.audioSize := le_trans hlo hlo1
  -- the begin-frame failure
  by_cases hfail : r.m_AudioBufferBytesFilled = 0 ∧ c.beginFrame = none
  · obtain ⟨hz, hnone⟩ := hfail
    have hrun : submitAudio r c.audioBuffer c.audioSize c.beginFrame
        = some ({ r with m_AudioBuffer := none },
            [Call.SLAudio_BeginFrame r.m_AudioStream false,
             Call.SDL_LogError "SLAudio_BeginFrame() failed"], true) := by
      simp [submitAudio, hz, hnone]
    rw [hrun] at hrest
    refine ⟨_, _, hrun, hrest, ⟨by simp [hz], by simp [hz]⟩, rfl, rfl, rfl, ?_, ?_, ?_⟩
    · simp only [hz]; omega
    · intro h; simp only [hz]; exact h
    · exact Or.inl ⟨hz, hnone, hz, rfl⟩
  -- the region the call copies into
  have hinuse : ∃ buf, bufferInUse r c.beginFrame = some buf
      ∧ (buf.length : Int) = r.m_AudioBufferSize := by
    unfold bufferInUse
    by_cases hz : r.m_AudioBufferBytesFilled = 0
    · simp only [hz, if_true]
      cases hb : c.beginFrame with
      | none => exact absurd ⟨hz, hb⟩ hfail
      | some b => exact ⟨b, rfl, hbf b hb⟩
    · simp only [hz, if_false]
      exact hheld hz
  obtain ⟨buf, hbuf, hlen⟩ := hinuse
  have hrun := submitAudio_step r c.audioBuffer c.audioSize c.beginFrame buf hfill0 hn hfit hsrc
    hbuf hlen
  have hheldEq := heldBytes_of_inUse r c.beginFrame buf hbuf
  have hdst : r.m_AudioBufferBytesFilled + c.audioSize ≤ buf.length := by omega
  have hclen := copied_length buf c.audioBuffer r.m_AudioBufferBytesFilled c.audioSize hfill0 hn
    hdst hsrc
  have hplen := copied_prefix_length buf c.audioBuffer r.m_AudioBufferBytesFilled c.audioSize
    hfill0 hn hdst hsrc
  rw [hrun] at hrest
  refine ⟨_, _, hrun, hrest, ⟨?_, ?_⟩, rfl, rfl, rfl, ?_, ?_, Or.inr ⟨?_, rfl, ?_, ?_, ?_⟩⟩
  · dsimp only
    split <;> omega
  · intro _
    exact ⟨_, rfl, by rw [hclen]; exact hlen⟩
  · dsimp only
    split <;> omega
  · intro hpos
    dsimp only
    split <;> omega
  · intro hz hnone
    exact hfail ⟨hz, hnone⟩
  · by_cases hfull : r.m_AudioBufferBytesFilled + c.audioSize = r.m_AudioBufferSize
    · have := copied_full buf c.audioBuffer r.m_AudioBufferBytesFilled c.audioSize hfill0 hn
        (by omega)
      simp only [hfull, if_true, this, hheldEq, SubmitCall.chunk]
    · simp only [hfull, if_false]
  · intro hfull
    have := copied_take buf c.audioBuffer r.m_AudioBufferBytesFilled c.audioSize hfill0 hn
      hdst hsrc
    simp only [heldBytes, hfull, if_false, this, SubmitCall.chunk]
    rw [← hheldEq]
    simp only [heldBytes]
  · rw [hheldEq]
    exact hplen

/-! ## Sequences of calls -/

theorem submittedFrames_append (a b : List Call) :
    submittedFrames (a ++ b) = submittedFrames a ++ submittedFrames b := by
  induction a with
  | nil => rfl
  | cons x xs ih => cases x <;> simp [submittedFrames, ih]

theorem slotRun_append (a b : List Call) (outstanding : Bool) :
    slotRun outstanding (a ++ b) = (slotRun outstanding a).bind (fun o => slotRun o b) := by
  induction a generalizing outstanding with
  | nil => rfl
  | cons x xs ih =>
    cases x with
    | SLAudio_BeginFrame s acquired =>
      cases acquired <;> cases outstanding <;> simp [slotRun, ih]
    | SLAudio_SubmitFrame s f => cases outstanding <;> simp [slotRun, ih]
    | _ => simp [slotRun, ih]

theorem heldBytes_of_zero (r : SLAudioRenderer) (h : r.m_AudioBufferBytesFilled = 0) :
    heldBytes r = [] := by
  unfold heldBytes
  cases r.m_AudioBuffer <;> simp [h]

theorem submitAll_cons (r r1 : SLAudioRenderer) (c : SubmitCall) (cs : List SubmitCall)
    (t1 : List Call) (b : Bool)
    (h : submitAudio r c.audioBuffer c.audioSize c.beginFrame = some (r1, t1, b)) :
    submitAll r (c :: cs) = (submitAll r1 cs).map (fun p => (p.1, t1 ++ p.2)) := by
  simp only [submitAll, h]
  cases submitAll r1 cs <;> rfl

/-- A sequence of calls that respects the contract and always obtains its buffer runs to the
end; the frames handed to the backend are the ones the specification describes, each has the
stream's size, and together with the bytes still held they are the chunks in order. -/
theorem submitAll_fits (calls : List SubmitCall) :
    ∀ r : SLAudioRenderer, WellFormed r → Fits 0 r calls →
      (∀ c ∈ calls, c.beginFrame ≠ none) →
      ∃ r1 tr, submitAll r calls = some (r1, tr)
        ∧ WellFormed r1
        ∧ r1.m_AudioBufferSize = r.m_AudioBufferSize
        ∧ submittedFrames tr
            = specFrames r.m_AudioBufferSize (heldBytes r) (calls.map SubmitCall.chunk)
        ∧ r.m_AudioBufferBytesFilled + cumulativeSize calls
            = ((submittedFrames tr).length : Int) * r.m_AudioBufferSize
              + r1.m_AudioBufferBytesFilled
        ∧ (∀ f ∈ submittedFrames tr, (f.length : Int) = r.m_AudioBufferSize)
        ∧ (submittedFrames tr).flatten ++ heldBytes r1
            = heldBytes r ++ (calls.map SubmitCall.chunk).flatten
        ∧ (0 < r.m_AudioBufferSize → r.m_AudioBufferBytesFilled < r.m_AudioBufferSize →
            r1.m_AudioBufferBytesFilled < r.m_AudioBufferSize) := by
  induction calls with
  | nil =>
    intro r hwf _ _
    refine ⟨r, [], rfl, hwf, rfl, rfl, ?_, ?_, ?_, fun _ h => h⟩
    · simp [submittedFrames, cumulativeSize]
    · simp [submittedFrames]
    · simp [submittedFrames]
  | cons c cs ih =>
    intro r hwf hfits hbegin
    obtain ⟨r1, t1, hrun, hfits1, hwf1, hcap1, _, _, _, hlt1, hcase⟩ :=
      submitAudio_fits 0 (le_refl 0) r c cs hwf hfits
    have hc : c.beginFrame ≠ none := hbegin c (List.mem_cons_self c cs)
    rcases hcase with ⟨_, hnone, _, _⟩ | ⟨_, hfill1, ht1, hheld1, hlen1⟩
    · exact absurd hnone hc
    obtain ⟨r2, tr, hrest, hwf2, hcap2, hframes, hcount, hlens, hjoin, hlt2⟩ :=
      ih r1 hwf1 hfits1 (fun x hx => hbegin x (List.mem_cons_of_mem c hx))
    have hall : submitAll r (c :: cs) = some (r2, t1 ++ tr) := by
      rw [submitAll_cons r r1 c cs t1 true hrun, hrest]; rfl
    have hsum : cumulativeSize (c :: cs) = c.audioSize + cumulativeSize cs := by
      simp [cumulativeSize]
    rw [hcap1] at hcap2 hframes hcount hlens hlt2
    by_cases hfull : r.m_AudioBufferBytesFilled + c.audioSize = r.m_AudioBufferSize
    · simp only [hfull, if_true] at hfill1 ht1
      have hft1 : submittedFrames t1 = [heldBytes r ++ c.chunk] := by
        rw [ht1]; split <;> simp [submittedFrames]
      rw [heldBytes_of_zero r1 hfill1] at hframes hjoin
      refine ⟨r2, t1 ++ tr, hall, hwf2, hcap2, ?_, ?_, ?_, ?_, ?_⟩
      · rw [submittedFrames_append, hft1, hframes]
        simp only [List.map_cons, specFrames]
        rw [if_pos (by rw [hlen1, hfull])]
        rfl
      · rw [submittedFrames_append, hft1, hsum]
        simp only [List.length_append, List.length_singleton, Nat.cast_add, Nat.cast_one]
        rw [hfill1] at hcount
        linarith
      · intro f hf
        rw [submittedFrames_append, hft1] at hf
        rcases List.mem_append.mp hf with h | h
        · rw [List.mem_singleton.mp h, hlen1, hfull]
        · exact hlens f h
      · rw [submittedFrames_append, hft1]
        simp only [List.flatten_append, List.flatten_cons, List.flatten_nil, List.append_nil,
          List.map_cons, List.append_assoc]
        rw [hjoin]
        simp
      · intro hpos _
        exact hlt2 hpos (by rw [hfill1]; exact hpos)
    · simp only [hfull, if_false] at hfill1 ht1
      have hft1 : submittedFrames t1 = [] := by
        rw [ht1]; split <;> simp [submittedFrames]
      rw [hheld1 hfull] at hframes hjoin
      refine ⟨r2, t1 ++ tr, hall, hwf2, hcap2, ?_, ?_, ?_, ?_, ?_⟩
      · rw [submittedFrames_append, hft1, hframes]
        simp only [List.map_cons, specFrames, List.nil_append]
        rw [if_neg (by rw [hlen1]; exact hfull)]
      · rw [submittedFrames_append, hft1, hsum]
        simp only [List.nil_append]
        rw [hfill1] at hcount
        linarith
      · intro f hf
        rw [submittedFrames_append, hft1] at hf
        exact hlens f hf
      · rw [submittedFrames_append, hft1]
        simp only [List.nil_append, List.map_cons, List.flatten_cons]
        rw [hjoin]
        simp
      · intro hpos _
        exact hlt2 hpos (hlt1 hpos)

/-- Whatever the arguments, a call of `submitAudio` that returns leaves the capacity and the
handles alone, returns true, keeps the fill offset between 0 and a non-negative capacity, and
leaves it at 0 when it submitted a frame. -/
theorem submitAudio_some (r r1 : SLAudioRenderer) (audioBuffer : List Byte) (audioSize : Int)
    (beginFrame : Option (List Byte)) (t1 : List Call) (b : Bool)
    (h : submitAudio r audioBuffer audioSize beginFrame = some (r1, t1, b)) :
    b = true
    ∧ r1.m_AudioBufferSize = r.m_AudioBufferSize
    ∧ r1.m_AudioStream = r.m_AudioStream
    ∧ r1.m_AudioContext = r.m_AudioContext
    ∧ (0 ≤ r.m_AudioBufferSize →
        0 ≤ r1.m_AudioBufferBytesFilled ∧ r1.m_AudioBufferBytesFilled ≤ r.m_AudioBufferSize)
    ∧ (submittedFrames t1 ≠ [] → r1.m_AudioBufferBytesFilled = 0) := by
  have hacc : ∀ (q q1 : SLAudioRenderer) (t : List Call),
      accumulate q audioBuffer audioSize = some (q1, t) →
      q1.m_AudioBufferSize = q.m_AudioBufferSize ∧ q1.m_AudioStream = q.m_AudioStream
      ∧ q1.m_AudioContext = q.m_AudioContext
      ∧ (0 ≤ q1.m_AudioBufferBytesFilled ∧ q1.m_AudioBufferBytesFilled ≤ q.m_AudioBufferSize)
      ∧ (submittedFrames t ≠ [] → q1.m_AudioBufferBytesFilled = 0) := by
    intro q q1 t hq
    unfold accumulate at hq
    split at hq
    · rename_i hfit
      split at hq
      · exact absurd hq (by simp)
      · rename_i buf hbuf
        split at hq
        · exact absurd hq (by simp)
        · rename_i out hout
          obtain ⟨h0, hn, _, _⟩ := memcpy_some_bounds _ _ _ _ _ hout
          dsimp only at hq
          split at hq
          · rename_i hfull
            simp only [Option.some.injEq, Prod.mk.injEq] at hq
            obtain ⟨rfl, rfl⟩ := hq
            refine ⟨rfl, rfl, rfl, ⟨le_refl 0, ?_⟩, fun _ => rfl⟩
            dsimp only
            omega
          · simp only [Option.some.injEq, Prod.mk.injEq] at hq
            obtain ⟨rfl, rfl⟩ := hq
            refine ⟨rfl, rfl, rfl, ⟨?_, ?_⟩, fun hne => absurd rfl hne⟩
            · dsimp only; omega
            · dsimp only; omega
    · exact absurd hq (by simp)
  unfold submitAudio at h
  split at h
  · rename_i hz
    split at h
    · simp only [Option.some.injEq, Prod.mk.injEq] at h
      obtain ⟨rfl, rfl, rfl⟩ := h
      refine ⟨rfl, rfl, rfl, rfl, fun hcap => ⟨?_, ?_⟩, fun hne => ?_⟩
      · simp [hz]
      · simp only [hz]; exact hcap
      · exact absurd rfl hne
    · rename_i buf
      split at h
      · exact absurd h (by simp)
      · rename_i q1 t hq
        simp only [Option.some.injEq, Prod.mk.injEq] at h
        obtain ⟨rfl, rfl, rfl⟩ := h
        obtain ⟨h1, h2, h3, h4, h5⟩ := hacc _ _ _ hq
        exact ⟨rfl, h1, h2, h3, fun _ => h4, fun hne => h5 (by simpa [submittedFrames] using hne)⟩
  · split at h
    · exact absurd h (by simp)
    · rename_i q1 t hq
      simp only [Option.some.injEq, Prod.mk.injEq] at h
      obtain ⟨rfl, rfl, rfl⟩ := h
      obtain ⟨h1, h2, h3, h4, h5⟩ := hacc _ _ _ hq
      exact ⟨rfl, h1, h2, h3, fun _ => h4, h5⟩

/-- The fill offset stays between 0 and a non-negative capacity along every sequence of calls
that runs to the end. -/
theorem submitAll_some (calls : List SubmitCall) :
    ∀ (r r1 : SLAudioRenderer) (tr : List Call), submitAll r calls = some (r1, tr) →
      0 ≤ r.m_AudioBufferSize →
      0 ≤ r.m_AudioBufferBytesFilled ∧ r.m_AudioBufferBytesFilled ≤ r.m_AudioBufferSize →
      r1.m_AudioBufferSize = r.m_AudioBufferSize
      ∧ 0 ≤ r1.m_AudioBufferBytesFilled ∧ r1.m_AudioBufferBytesFilled ≤ r1.m_AudioBufferSize := by
  induction calls with
  | nil =>
    intro r r1 tr h _ hfill
    simp only [submitAll, Option.some.injEq, Prod.mk.injEq] at h
    obtain ⟨rfl, _⟩ := h
    exact ⟨rfl, hfill⟩
  | cons c cs ih =>
    intro r r1 tr h hcap _
    cases hstep : submitAudio r c.audioBuffer c.audioSize c.beginFrame with
    | none => simp [submitAll, hstep] at h
    | some p =>
      obtain ⟨q, t, b⟩ := p
      rw [submitAll_cons r q c cs t b hstep] at h
      cases hrest : submitAll q cs with
      | none => simp [hrest] at h
      | some p2 =>
        obtain ⟨q2, t2⟩ := p2
        simp only [hrest, Option.map_some', Option.some.injEq, Prod.mk.injEq] at h
        obtain ⟨rfl, _⟩ := h
        obtain ⟨_, hcapq, _, _, hfillq, _⟩ := submitAudio_some r q _ _ _ t b hstep
        have hq := hfillq hcap
        have := ih q q2 t2 hrest (by rw [hcapq]; exact hcap) (by rw [hcapq]; exact hq)
        rw [hcapq] at this
        exact this

/-- A sequence of calls that respects the contract runs to the end and leaves a well-formed
renderer, whether or not the backend hands out buffers; when every size is positive the calls
made keep the single-slot discipline, and a buffer is outstanding at the end exactly when the
fill offset is not 0. -/
theorem submitAll_runs (lo : Int) (hlo : 0 ≤ lo) (calls : List SubmitCall) :
    ∀ r : SLAudioRenderer, WellFormed r → Fits lo r calls →
      ∃ r1 tr, submitAll r calls = some (r1, tr)
        ∧ WellFormed r1
        ∧ r1.m_AudioBufferSize = r.m_AudioBufferSize
        ∧ r1.m_AudioStream = r.m_AudioStream
        ∧ r1.m_AudioContext = r.m_AudioContext
        ∧ (1 ≤ lo → slotRun (decide (r.m_AudioBufferBytesFilled ≠ 0)) tr
            = some (decide (r1.m_AudioBufferBytesFilled ≠ 0))) := by
  induction calls with
  | nil =>
    intro r hwf _
    exact ⟨r, [], rfl, hwf, rfl, rfl, rfl, fun _ => rfl⟩
  | cons c cs ih =>
    intro r hwf hfits
    have hsize : lo ≤ c.audioSize := by
      simp only [Fits] at hfits
      exact hfits.1
    obtain ⟨r1, t1, hrun, hfits1, hwf1, hcap1, hstr1, hctx1, _, _, hcase⟩ :=
      submitAudio_fits lo hlo r c cs hwf hfits
    obtain ⟨r2, tr, hrest, hwf2, hcap2, hstr2, hctx2, hslot2⟩ := ih r1 hwf1 hfits1
    have hall : submitAll r (c :: cs) = some (r2, t1 ++ tr) := by
      rw [submitAll_cons r r1 c cs t1 true hrun, hrest]; rfl
    refine ⟨r2, t1 ++ tr, hall, hwf2, hcap2.trans hcap1, hstr2.trans hstr1, hctx2.trans hctx1, ?_⟩
    intro hpos
    have hstep : slotRun (decide (r.m_AudioBufferBytesFilled ≠ 0)) t1
        = some (decide (r1.m_AudioBufferBytesFilled ≠ 0)) := by
      have h0 := hwf.1
      rcases hcase with ⟨hz, _, hz1, ht1⟩ | ⟨_, hfill1, ht1, _, _⟩
      · rw [ht1, hz, hz1]
        simp [slotRun]
      · rw [ht1, hfill1]
        by_cases hfull : r.m_AudioBufferBytesFilled + c.audioSize = r.m_AudioBufferSize
        · rw [if_pos hfull, if_pos hfull]
          by_cases hz : r.m_AudioBufferBytesFilled = 0
          · rw [if_pos hz]
            simp [slotRun, hz]
          · rw [if_neg hz]
            simp [slotRun, hz]
        · rw [if_neg hfull, if_neg hfull]
          have hd : decide (r.m_AudioBufferBytesFilled + c.audioSize ≠ 0) = true :=
            decide_eq_true (by omega)
          rw [hd]
          by_cases hz : r.m_AudioBufferBytesFilled = 0
          · rw [if_pos hz]
            simp [slotRun, hz]
          · rw [if_neg hz]
            simp [slotRun, hz]
    rw [slotRun_append, hstep]
    exact hslot2 hpos

/-! ## Teardown -/

theorem dtor_of_empty (r : SLAudioRenderer) (h : r.m_AudioBufferBytesFilled = 0) :
    SLAudioRenderer_dtor r = some (r, releaseCalls r) := by
  simp [SLAudioRenderer_dtor, h, releaseCalls]

theorem dtor_of_held (r : SLAudioRenderer) (buf : List Byte)
    (h : r.m_AudioBufferBytesFilled ≠ 0) (hbuf : r.m_AudioBuffer = some buf)
    (hlen : (buf.length : Int) = r.m_AudioBufferSize) :
    SLAudioRenderer_dtor r
      = some ({ r with m_AudioBuffer := some (List.replicate r.m_AudioBufferSize.toNat 0) },
              Call.SLAudio_SubmitFrame r.m_AudioStream
                  (List.replicate r.m_AudioBufferSize.toNat 0)
                :: releaseCalls r) := by
  have hset : memset buf 0 r.m_AudioBufferSize
      = some (List.replicate r.m_AudioBufferSize.toNat 0) := by
    have hdrop : buf.drop r.m_AudioBufferSize.toNat = [] := by
      apply List.drop_of_length_le
      omega
    have hcond : 0 ≤ r.m_AudioBufferSize ∧ r.m_AudioBufferSize ≤ buf.length := by omega
    simp [memset, hcond, hdrop]
  simp [SLAudioRenderer_dtor, h, hbuf, hset, releaseCalls]

theorem submittedFrames_releaseCalls (r : SLAudioRenderer) :
    submittedFrames (releaseCalls r) = [] := by
  unfold releaseCalls
  cases r.m_AudioStream <;> cases r.m_AudioContext <;> rfl

theorem slotRun_releaseCalls (r : SLAudioRenderer) (outstanding : Bool) :
    slotRun outstanding (releaseCalls r) = some outstanding := by
  unfold releaseCalls
  cases r.m_AudioStream <;> cases r.m_AudioContext <;> rfl

theorem wellFormed_prepared (SAMPLES_PER_FRAME indeterminate : Int)
    (opusConfig : OPUS_MULTISTREAM_CONFIGURATION) (createContext createStream : Option Handle) :
    WellFormed (prepared SAMPLES_PER_FRAME indeterminate opusConfig createContext createStream)
    ∧ (prepared SAMPLES_PER_FRAME indeterminate opusConfig createContext
        createStream).m_AudioBufferBytesFilled = 0 := by
  cases createContext <;> cases createStream <;>
    simp [prepared, prepareForPlayback, SLAudioRenderer_ctor, WellFormed]

theorem copied_inside (buf src : List Byte) (fill n : Int) (_h0 : 0 ≤ fill) (hn : 0 ≤ n)
    (hdst : fill + n ≤ buf.length) (hsrc : n ≤ src.length) (i : Nat) (hi : i < n.toNat) :
    (buf.take fill.toNat ++ src.take n.toNat ++ buf.drop (fill.toNat + n.toNat))[fill.toNat + i]?
      = src[i]? := by
  have hA : (buf.take fill.toNat).length = fill.toNat := by
    rw [List.length_take]; omega
  have hB : (src.take n.toNat).length = n.toNat := by
    rw [List.length_take]; omega
  rw [List.getElem?_append_left (by rw [List.length_append, hA, hB]; omega),
    List.getElem?_append_right (by rw [hA]; omega), hA, Nat.add_sub_cancel_left,
    List.getElem?_take_of_lt hi]

theorem copied_outside (buf src : List Byte) (fill n : Int) (_h0 : 0 ≤ fill) (hn : 0 ≤ n)
    (hdst : fill + n ≤ buf.length) (hsrc : n ≤ src.length) (j : Nat)
    (hj : j < fill.toNat ∨ fill.toNat + n.toNat ≤ j) :
    (buf.take fill.toNat ++ src.take n.toNat ++ buf.drop (fill.toNat + n.toNat))[j]?
      = buf[j]? := by
  have hA : (buf.take fill.toNat).length = fill.toNat := by
    rw [List.length_take]; omega
  have hB : (src.take n.toNat).length = n.toNat := by
    rw [List.length_take]; omega
  rcases hj with hj | hj
  · rw [List.append_assoc, List.getElem?_append_left (by rw [hA]; exact hj),
      List.getElem?_take_of_lt hj]
  · rw [List.getElem?_append_right (by rw [List.length_append, hA, hB]; exact hj),
      List.length_append, hA, hB, List.getElem?_drop]
    congr 1
    omega

theorem submitAudio_zero_size (r : SLAudioRenderer) (audioBuffer buf : List Byte)
    (hz : r.m_AudioBufferBytesFilled = 0) (hcap : r.m_AudioBufferSize ≠ 0)
    (hpos : 0 ≤ r.m_AudioBufferSize) :
    submitAudio r audioBuffer 0 (some buf)
      = some ({ r with m_AudioBuffer := some buf },
              [Call.SLAudio_BeginFrame r.m_AudioStream true], true) := by
  have hcap1 : ¬ (0 : Int) = r.m_AudioBufferSize := fun h => hcap h.symm
  simp [submitAudio, accumulate, memcpy, hz, hpos, hcap1]

/-- Two calls of size 0 in a row, each of which is handed a buffer: both ask for a buffer and
neither submits. -/
theorem submitAll_zero_sizes (r : SLAudioRenderer) (buf : List Byte)
    (hz : r.m_AudioBufferBytesFilled = 0) (hcap : 0 < r.m_AudioBufferSize)
    (hlen : (buf.length : Int) = r.m_AudioBufferSize) :
    Fits 0 r [SubmitCall.mk [] 0 (some buf), SubmitCall.mk [] 0 (some buf)]
    ∧ submitAll r [SubmitCall.mk [] 0 (some buf), SubmitCall.mk [] 0 (some buf)]
        = some ({ r with m_AudioBuffer := some buf },
                [Call.SLAudio_BeginFrame r.m_AudioStream true,
                 Call.SLAudio_BeginFrame r.m_AudioStream true]) := by
  have hstep1 := submitAudio_zero_size r [] buf hz (by omega) (by omega)
  have hstep2 := submitAudio_zero_size { r with m_AudioBuffer := some buf } [] buf hz
    (by show r.m_AudioBufferSize ≠ 0; omega) (by show 0 ≤ r.m_AudioBufferSize; omega)
  constructor
  · simp only [Fits, hstep1, hstep2, hz]
    refine ⟨le_refl 0, by omega, by simp, ?_, le_refl 0, by omega, by simp, ?_, ?_⟩
    · intro b hb
      cases hb
      exact hlen
    · intro b hb
      cases hb
      exact hlen
    · split <;> trivial
  · rw [submitAll_cons r _ _ _ _ _ hstep1, submitAll_cons _ _ _ _ _ _ hstep2]
    rfl

/-! ## The claims -/

/-- C1, counterexample: after a successful preparation for two channels with 240 samples per
frame the capacity is 3840 bytes; one call with 3840 bytes during which `SLAudio_BeginFrame`
returns null has a cumulative size of one capacity, yet no frame is submitted. -/
theorem submitAudio_batches_counterexample :
    (prepareForPlayback 240 (SLAudioRenderer_ctor 0).1 ⟨48000, 2⟩ (some 1) (some 2)).2.2 = true
    ∧ (prepared 240 0 ⟨48000, 2⟩ (some 1) (some 2)).m_AudioBufferSize = 3840
    ∧ cumulativeSize [SubmitCall.mk (List.replicate 3840 0) 3840 none] = 3840
    ∧ submitAll (prepared 240 0 ⟨48000, 2⟩ (some 1) (some 2))
          [SubmitCall.mk (List.replicate 3840 0) 3840 none]
        = some ({ prepared 240 0 ⟨48000, 2⟩ (some 1) (some 2) with m_AudioBuffer := none },
                [Call.SLAudio_BeginFrame (some 2) false,
                 Call.SDL_LogError "SLAudio_BeginFrame() failed"])
    ∧ ((submittedFrames [Call.SLAudio_BeginFrame (some 2) false,
          Call.SDL_LogError "SLAudio_BeginFrame() failed"]).length : Int)
        ≠ cumulativeSize [SubmitCall.mk (List.replicate 3840 0) 3840 none]
            / (prepared 240 0 ⟨48000, 2⟩ (some 1) (some 2)).m_AudioBufferSize := by
  have hcap : (prepared 240 0 ⟨48000, 2⟩ (some 1) (some 2)).m_AudioBufferSize = 3840 := by
    simp [prepared, prepareForPlayback, SLAudioRenderer_ctor, toInt32, sizeof_short,
      FRAMES_PER_SUBMISSION]
  have hsum : cumulativeSize [SubmitCall.mk (List.replicate 3840 0) 3840 none] = 3840 := by
    simp only [cumulativeSize, List.map_cons, List.map_nil, List.sum_cons, List.sum_nil,
      add_zero]
  refine ⟨rfl, hcap, hsum, ?_, ?_⟩
  · have hz := (wellFormed_prepared 240 0 ⟨48000, 2⟩ (some 1) (some 2)).2
    simp only [submitAll, submitAudio, hz, if_true, List.append_nil]
    rfl
  · rw [hsum, hcap]
    simp [submittedFrames]

/-- C1, amended: after a successful preparation with a positive capacity, for every sequence of
`submitAudio` calls in which each call obtains its buffer and each size lies between 0 and the
remaining capacity, and whose cumulative size is a multiple of the capacity, the calls run to the
end, the backend receives exactly (cumulative size / capacity) frames, each frame has the
capacity as its length, and the frames in order are exactly the bytes of the chunks in order, so
that every byte of every frame was written by a chunk. -/
theorem submitAudio_batches (SAMPLES_PER_FRAME indeterminate : Int)
    (opusConfig : OPUS_MULTISTREAM_CONFIGURATION) (context stream : Handle)
    (calls : List SubmitCall)
    (hcap : 0 < (prepared SAMPLES_PER_FRAME indeterminate opusConfig (some context)
      (some stream)).m_AudioBufferSize)
    (hbegin : ∀ c ∈ calls, c.beginFrame ≠ none)
    (hfits : Fits 0 (prepared SAMPLES_PER_FRAME indeterminate opusConfig (some context)
      (some stream)) calls)
    (hmul : (prepared SAMPLES_PER_FRAME indeterminate opusConfig (some context)
      (some stream)).m_AudioBufferSize ∣ cumulativeSize calls) :
    ∃ r1 tr,
      submitAll (prepared SAMPLES_PER_FRAME indeterminate opusConfig (some context)
          (some stream)) calls = some (r1, tr)
      ∧ ((submittedFrames tr).length : Int)
          = cumulativeSize calls
            / (prepared SAMPLES_PER_FRAME indeterminate opusConfig (some context)
                (some stream)).m_AudioBufferSize
      ∧ (∀ f ∈ submittedFrames tr, (f.length : Int)
          = (prepared SAMPLES_PER_FRAME indeterminate opusConfig (some context)
              (some stream)).m_AudioBufferSize)
      ∧ (submittedFrames tr).flatten = (calls.map SubmitCall.chunk).flatten
      ∧ r1.m_AudioBufferBytesFilled = 0 := by
  obtain ⟨hwf, hzero⟩ := wellFormed_prepared SAMPLES_PER_FRAME indeterminate opusConfig
    (some context) (some stream)
  generalize prepared SAMPLES_PER_FRAME indeterminate opusConfig (some context) (some stream)
    = r at *
  obtain ⟨r1, tr, hrun, hwf1, _, _, hcount, hlens, hjoin, hlt⟩ :=
    submitAll_fits calls r hwf hfits hbegin
  have hlt1 : r1.m_AudioBufferBytesFilled < r.m_AudioBufferSize :=
    hlt hcap (by rw [hzero]; exact hcap)
  have h0 : 0 ≤ r1.m_AudioBufferBytesFilled := hwf1.1
  rw [hzero, zero_add] at hcount
  have hfill : r1.m_AudioBufferBytesFilled = 0 := by
    have h1 : cumulativeSize calls % r.m_AudioBufferSize = 0 := Int.emod_eq_zero_of_dvd hmul
    rw [hcount, add_comm, Int.add_mul_emod_self, Int.emod_eq_of_lt h0 hlt1] at h1
    exact h1
  refine ⟨r1, tr, hrun, ?_, hlens, ?_, hfill⟩
  · rw [hcount, hfill, add_zero]
    exact (Int.mul_ediv_cancel _ (ne_of_gt hcap)).symm
  · rw [heldBytes_of_zero r1 hfill, heldBytes_of_zero r hzero] at hjoin
    simpa using hjoin

/-- C1, witness: one sample per frame and one channel give a capacity of 8 bytes; two calls of 4
bytes each make one frame. -/
theorem submitAudio_batches_witness :
    ∃ r1 tr,
      submitAll (prepared 1 0 ⟨48000, 1⟩ (some 1) (some 2))
          [SubmitCall.mk [1, 2, 3, 4] 4 (some [0, 0, 0, 0, 0, 0, 0, 0]),
           SubmitCall.mk [5, 6, 7, 8] 4 (some [0, 0, 0, 0, 0, 0, 0, 0])] = some (r1, tr)
      ∧ ((submittedFrames tr).length : Int)
          = cumulativeSize
              [SubmitCall.mk [1, 2, 3, 4] 4 (some [0, 0, 0, 0, 0, 0, 0, 0]),
               SubmitCall.mk [5, 6, 7, 8] 4 (some [0, 0, 0, 0, 0, 0, 0, 0])]
            / (prepared 1 0 ⟨48000, 1⟩ (some 1) (some 2)).m_AudioBufferSize
      ∧ (∀ f ∈ submittedFrames tr, (f.length : Int)
          = (prepared 1 0 ⟨48000, 1⟩ (some 1) (some 2)).m_AudioBufferSize)
      ∧ (submittedFrames tr).flatten
          = ([SubmitCall.mk [1, 2, 3, 4] 4 (some [0, 0, 0, 0, 0, 0, 0, 0]),
              SubmitCall.mk [5, 6, 7, 8] 4 (some [0, 0, 0, 0, 0, 0, 0, 0])].map
                SubmitCall.chunk).flatten
      ∧ r1.m_AudioBufferBytesFilled = 0 :=
  submitAudio_batches 1 0 ⟨48000, 1⟩ 1 2
    [SubmitCall.mk [1, 2, 3, 4] 4 (some [0, 0, 0, 0, 0, 0, 0, 0]),
     SubmitCall.mk [5, 6, 7, 8] 4 (some [0, 0, 0, 0, 0, 0, 0, 0])]
    (by decide) (by decide)
    (by simp [Fits, prepared, prepareForPlayback, SLAudioRenderer_ctor, toInt32, sizeof_short,
          FRAMES_PER_SUBMISSION, submitAudio, accumulate, memcpy])
    (by decide)

/-- C2, counterexample: with 240 samples per frame and a channel count of -1 the product on
line 28 wraps to a capacity of -1920; when the backend still hands out a context and a stream
the preparation returns true, and in the state it leaves (reached by no call at all) the fill
offset 0 is above the capacity. -/
theorem fill_offset_bounds_counterexample :
    (prepareForPlayback 240 (SLAudioRenderer_ctor 0).1 ⟨48000, -1⟩ (some 1) (some 2)).2.2 = true
    ∧ (prepared 240 0 ⟨48000, -1⟩ (some 1) (some 2)).m_AudioBufferSize = -1920
    ∧ (prepared 240 0 ⟨48000, -1⟩ (some 1) (some 2)).m_AudioBufferBytesFilled = 0
    ∧ submitAll (prepared 240 0 ⟨48000, -1⟩ (some 1) (some 2)) []
        = some (prepared 240 0 ⟨48000, -1⟩ (some 1) (some 2), [])
    ∧ ¬ ((prepared 240 0 ⟨48000, -1⟩ (some 1) (some 2)).m_AudioBufferBytesFilled
          ≤ (prepared 240 0 ⟨48000, -1⟩ (some 1) (some 2)).m_AudioBufferSize) := by
  have hcap : (prepared 240 0 ⟨48000, -1⟩ (some 1) (some 2)).m_AudioBufferSize = -1920 := by
    decide
  refine ⟨rfl, hcap, rfl, rfl, ?_⟩
  rw [hcap]
  decide

/-- C2, amended: after the constructor and a successful preparation that leaves a non-negative
capacity, every sequence of `submitAudio` calls whose sizes lie between 0 and the remaining
capacity runs to the end; in every state that a sequence of calls reaches the capacity is the
configured one and the fill offset lies between 0 and the capacity; and the fill offset is 0
right after any call that submitted a frame. -/
theorem fill_offset_bounds (SAMPLES_PER_FRAME indeterminate : Int)
    (opusConfig : OPUS_MULTISTREAM_CONFIGURATION) (context stream : Handle)
    (hcap : 0 ≤ (prepared SAMPLES_PER_FRAME indeterminate opusConfig (some context)
      (some stream)).m_AudioBufferSize) :
    (∀ calls, Fits 0 (prepared SAMPLES_PER_FRAME indeterminate opusConfig (some context)
        (some stream)) calls →
      ∃ r1 tr, submitAll (prepared SAMPLES_PER_FRAME indeterminate opusConfig (some context)
        (some stream)) calls = some (r1, tr))
    ∧ (∀ calls r1 tr,
        submitAll (prepared SAMPLES_PER_FRAME indeterminate opusConfig (some context)
          (some stream)) calls = some (r1, tr) →
        r1.m_AudioBufferSize
            = (prepared SAMPLES_PER_FRAME indeterminate opusConfig (some context)
                (some stream)).m_AudioBufferSize
          ∧ 0 ≤ r1.m_AudioBufferBytesFilled
          ∧ r1.m_AudioBufferBytesFilled ≤ r1.m_AudioBufferSize)
    ∧ (∀ (r r1 : SLAudioRenderer) (audioBuffer : List Byte) (audioSize : Int)
        (beginFrame : Option (List Byte)) (t1 : List Call) (b : Bool),
        submitAudio r audioBuffer audioSize beginFrame = some (r1, t1, b) →
        submittedFrames t1 ≠ [] → r1.m_AudioBufferBytesFilled = 0) := by
  obtain ⟨hwf, hzero⟩ := wellFormed_prepared SAMPLES_PER_FRAME indeterminate opusConfig
    (some context) (some stream)
  refine ⟨?_, ?_, ?_⟩
  · intro calls hfits
    obtain ⟨r1, tr, hrun, _⟩ := submitAll_runs 0 (le_refl 0) calls _ hwf hfits
    exact ⟨r1, tr, hrun⟩
  · intro calls r1 tr hrun
    exact submitAll_some calls _ r1 tr hrun hcap (by rw [hzero]; exact ⟨le_refl 0, hcap⟩)
  · intro r r1 audioBuffer audioSize beginFrame t1 b h
    exact (submitAudio_some r r1 audioBuffer audioSize beginFrame t1 b h).2.2.2.2.2

/-- C2, witness: with a capacity of 8 bytes, a call with 3 bytes leaves the fill offset at 3. -/
theorem fill_offset_bounds_witness :
    0 ≤ (prepared 1 0 ⟨48000, 1⟩ (some 1) (some 2)).m_AudioBufferSize
    ∧ submitAll (prepared 1 0 ⟨48000, 1⟩ (some 1) (some 2))
          [SubmitCall.mk [1, 2, 3] 3 (some [0, 0, 0, 0, 0, 0, 0, 0])]
        = some ({ m_AudioContext := some 1, m_AudioStream := some 2,
                  m_AudioBuffer := some [1, 2, 3, 0, 0, 0, 0, 0],
                  m_AudioBufferSize := 8, m_AudioBufferBytesFilled := 3 },
                [Call.SLAudio_BeginFrame (some 2) true])
    ∧ (8 : Int) = (prepared 1 0 ⟨48000, 1⟩ (some 1) (some 2)).m_AudioBufferSize
    ∧ (0 : Int) ≤ 3 ∧ (3 : Int) ≤ 8 :=
  ⟨by decide, by decide,
    (fill_offset_bounds 1 0 ⟨48000, 1⟩ 1 2 (by decide)).2.1
      [SubmitCall.mk [1, 2, 3] 3 (some [0, 0, 0, 0, 0, 0, 0, 0])]
      { m_AudioContext := some 1, m_AudioStream := some 2,
        m_AudioBuffer := some [1, 2, 3, 0, 0, 0, 0, 0],
        m_AudioBufferSize := 8, m_AudioBufferBytesFilled := 3 }
      [Call.SLAudio_BeginFrame (some 2) true] (by decide)⟩

/-- C3: the destructor of a renderer that holds a partial buffer (the fill offset is not 0 and
the buffer has the capacity as its size) makes exactly one `SLAudio_SubmitFrame` call, before
the releases, and the frame it submits consists of `m_AudioBufferSize` bytes that are all 0. -/
theorem dtor_flushes_partial_buffer (r : SLAudioRenderer) (hwf : WellFormed r)
    (hfill : r.m_AudioBufferBytesFilled ≠ 0) :
    ∃ r1 td frame, SLAudioRenderer_dtor r = some (r1, td)
      ∧ submittedFrames td = [frame]
      ∧ (frame.length : Int) = r.m_AudioBufferSize
      ∧ (∀ b ∈ frame, b = 0)
      ∧ r1.m_AudioBuffer = some frame
      ∧ td = Call.SLAudio_SubmitFrame r.m_AudioStream frame :: releaseCalls r := by
  obtain ⟨buf, hbuf, hlen⟩ := hwf.2 hfill
  refine ⟨_, _, List.replicate r.m_AudioBufferSize.toNat 0, dtor_of_held r buf hfill hbuf hlen,
    ?_, ?_, ?_, rfl, rfl⟩
  · simp [submittedFrames, submittedFrames_releaseCalls]
  · rw [List.length_replicate]; omega
  · intro b hb
    exact (List.mem_replicate.mp hb).2

/-- C3, witness: teardown with 3 of 8 bytes filled submits eight zero bytes once and then
releases the stream and the context. -/
theorem dtor_flushes_partial_buffer_witness :
    ∃ r1 td frame,
      SLAudioRenderer_dtor
          { m_AudioContext := some 1, m_AudioStream := some 2,
            m_AudioBuffer := some [1, 2, 3, 0, 0, 0, 0, 0],
            m_AudioBufferSize := 8, m_AudioBufferBytesFilled := 3 } = some (r1, td)
      ∧ submittedFrames td = [frame]
      ∧ (frame.length : Int) = 8
      ∧ (∀ b ∈ frame, b = 0)
      ∧ r1.m_AudioBuffer = some frame
      ∧ td = Call.SLAudio_SubmitFrame (some 2) frame
          :: releaseCalls
              { m_AudioContext := some 1, m_AudioStream := some 2,
                m_AudioBuffer := some [1, 2, 3, 0, 0, 0, 0, 0],
                m_AudioBufferSize := 8, m_AudioBufferBytesFilled := 3 } :=
  dtor_flushes_partial_buffer
    { m_AudioContext := some 1, m_AudioStream := some 2,
      m_AudioBuffer := some [1, 2, 3, 0, 0, 0, 0, 0],
      m_AudioBufferSize := 8, m_AudioBufferBytesFilled := 3 }
    ⟨by decide, fun _ => ⟨[1, 2, 3, 0, 0, 0, 0, 0], rfl, by decide⟩⟩ (by decide)

/-- C4: the destructor of a renderer whose fill offset is 0 makes no `SLAudio_SubmitFrame` call
and leaves every member, the accumulation buffer included, as it was; its calls are the
releases only.  This is the case right after the constructor, after a preparation that failed,
and right after a `submitAudio` call that submitted a frame. -/
theorem dtor_empty_buffer :
    (∀ r : SLAudioRenderer, r.m_AudioBufferBytesFilled = 0 →
      SLAudioRenderer_dtor r = some (r, releaseCalls r)
      ∧ submittedFrames (releaseCalls r) = [])
    ∧ (∀ indeterminate : Int,
        SLAudioRenderer_dtor (SLAudioRenderer_ctor indeterminate).1
          = some ((SLAudioRenderer_ctor indeterminate).1, []))
    ∧ (∀ (SAMPLES_PER_FRAME indeterminate : Int) (opusConfig : OPUS_MULTISTREAM_CONFIGURATION)
        (createContext createStream : Option Handle),
        (prepareForPlayback SAMPLES_PER_FRAME (SLAudioRenderer_ctor indeterminate).1 opusConfig
          createContext createStream).2.2 = false →
        SLAudioRenderer_dtor
            (prepared SAMPLES_PER_FRAME indeterminate opusConfig createContext createStream)
          = some (prepared SAMPLES_PER_FRAME indeterminate opusConfig createContext createStream,
              match createContext with
              | some context => [Call.SLAudio_FreeContext context]
              | none => []))
    ∧ (∀ (r r1 : SLAudioRenderer) (audioBuffer : List Byte) (audioSize : Int)
        (beginFrame : Option (List Byte)) (t1 : List Call) (b : Bool),
        submitAudio r audioBuffer audioSize beginFrame = some (r1, t1, b) →
        submittedFrames t1 ≠ [] →
        SLAudioRenderer_dtor r1 = some (r1, releaseCalls r1)
        ∧ submittedFrames (releaseCalls r1) = []) := by
  refine ⟨fun r h => ⟨dtor_of_empty r h, submittedFrames_releaseCalls r⟩, fun _ => rfl, ?_, ?_⟩
  · intro SAMPLES_PER_FRAME indeterminate opusConfig createContext createStream hfail
    cases createContext with
    | none => rfl
    | some context =>
      cases createStream with
      | none => rfl
      | some stream => simp [prepareForPlayback] at hfail
  · intro r r1 audioBuffer audioSize beginFrame t1 b h hsub
    have hz := (submitAudio_some r r1 audioBuffer audioSize beginFrame t1 b h).2.2.2.2.2 hsub
    exact ⟨dtor_of_empty r1 hz, submittedFrames_releaseCalls r1⟩

/-- C4, witness: teardown of a prepared renderer that never received audio only releases the
stream and the context. -/
theorem dtor_empty_buffer_witness :
    SLAudioRenderer_dtor (prepared 1 0 ⟨48000, 1⟩ (some 1) (some 2))
        = some (prepared 1 0 ⟨48000, 1⟩ (some 1) (some 2),
                releaseCalls (prepared 1 0 ⟨48000, 1⟩ (some 1) (some 2)))
    ∧ submittedFrames (releaseCalls (prepared 1 0 ⟨48000, 1⟩ (some 1) (some 2))) = [] :=
  dtor_empty_buffer.1 (prepared 1 0 ⟨48000, 1⟩ (some 1) (some 2)) (by decide)

/-- C5: the calls of the destructor are, in this order: the submission of the zeroed buffer
when the fill offset is not 0, `SLAudio_FreeStream` when the stream handle is not null, and
`SLAudio_FreeContext` when the context handle is not null; nothing else.  With both handles
held the releases are one `SLAudio_FreeStream` followed by one `SLAudio_FreeContext`. -/
theorem dtor_release_order (r : SLAudioRenderer) (hwf : WellFormed r) :
    ∃ r1 td, SLAudioRenderer_dtor r = some (r1, td)
      ∧ td = (if r.m_AudioBufferBytesFilled = 0 then []
              else [Call.SLAudio_SubmitFrame r.m_AudioStream
                      (List.replicate r.m_AudioBufferSize.toNat 0)])
            ++ (match r.m_AudioStream with
                | some stream => [Call.SLAudio_FreeStream stream]
                | none => [])
            ++ (match r.m_AudioContext with
                | some context => [Call.SLAudio_FreeContext context]
                | none => [])
      ∧ (∀ stream context, r.m_AudioStream = some stream → r.m_AudioContext = some context →
          td = (if r.m_AudioBufferBytesFilled = 0 then []
                else [Call.SLAudio_SubmitFrame r.m_AudioStream
                        (List.replicate r.m_AudioBufferSize.toNat 0)])
              ++ [Call.SLAudio_FreeStream stream, Call.SLAudio_FreeContext context]) := by
  by_cases hz : r.m_AudioBufferBytesFilled = 0
  · refine ⟨r, releaseCalls r, dtor_of_empty r hz, ?_, ?_⟩
    · simp [hz, releaseCalls]
    · intro stream context hs hc
      simp [hz, releaseCalls, hs, hc]
  · obtain ⟨buf, hbuf, hlen⟩ := hwf.2 hz
    refine ⟨_, _, dtor_of_held r buf hz hbuf hlen, ?_, ?_⟩
    · simp [hz, releaseCalls]
    · intro stream context hs hc
      simp [hz, releaseCalls, hs, hc]

/-- C5, witness: with 3 of 8 bytes filled and both handles held, the destructor submits, frees
the stream, then frees the context. -/
theorem dtor_release_order_witness :
    ∃ r1, SLAudioRenderer_dtor
        { m_AudioContext := some 1, m_AudioStream := some 2,
          m_AudioBuffer := some [1, 2, 3, 0, 0, 0, 0, 0],
          m_AudioBufferSize := 8, m_AudioBufferBytesFilled := 3 }
      = some (r1, [Call.SLAudio_SubmitFrame (some 2) [0, 0, 0, 0, 0, 0, 0, 0],
                   Call.SLAudio_FreeStream 2, Call.SLAudio_FreeContext 1]) := by
  obtain ⟨r1, td, hrun, _, hboth⟩ := dtor_release_order
    { m_AudioContext := some 1, m_AudioStream := some 2,
      m_AudioBuffer := some [1, 2, 3, 0, 0, 0, 0, 0],
      m_AudioBufferSize := 8, m_AudioBufferBytesFilled := 3 }
    ⟨by decide, fun _ => ⟨[1, 2, 3, 0, 0, 0, 0, 0], rfl, by decide⟩⟩
  refine ⟨r1, ?_⟩
  rw [hrun, hboth 2 1 rfl rfl]
  rfl

/-- C8: when `submitAudio` is called with the fill offset at 0 and `SLAudio_BeginFrame` returns
null, the call returns true, its only calls are the failed `SLAudio_BeginFrame` and the error
log, no byte is copied (the buffer pointer is null afterwards) and the fill offset is still 0, so
that the next call starts with `SLAudio_BeginFrame` again.  Every call that returns returns
true, and a call within the contract returns. -/
theorem submitAudio_beginFrame_failure :
    (∀ (r : SLAudioRenderer) (audioBuffer : List Byte) (audioSize : Int),
      r.m_AudioBufferBytesFilled = 0 →
      submitAudio r audioBuffer audioSize none
        = some ({ r with m_AudioBuffer := none, m_AudioBufferBytesFilled := 0 },
                [Call.SLAudio_BeginFrame r.m_AudioStream false,
                 Call.SDL_LogError "SLAudio_BeginFrame() failed"], true))
    ∧ (∀ (r r2 : SLAudioRenderer) (audioBuffer : List Byte) (audioSize : Int)
        (beginFrame : Option (List Byte)) (t2 : List Call) (b2 : Bool),
        submitAudio { r with m_AudioBuffer := none, m_AudioBufferBytesFilled := 0 }
          audioBuffer audioSize beginFrame = some (r2, t2, b2) →
        t2.head? = some (Call.SLAudio_BeginFrame r.m_AudioStream beginFrame.isSome))
    ∧ (∀ (r r1 : SLAudioRenderer) (audioBuffer : List Byte) (audioSize : Int)
        (beginFrame : Option (List Byte)) (t1 : List Call) (b : Bool),
        submitAudio r audioBuffer audioSize beginFrame = some (r1, t1, b) → b = true)
    ∧ (∀ (r : SLAudioRenderer) (audioBuffer : List Byte) (audioSize : Int)
        (beginFrame : Option (List Byte)) (buf : List Byte),
        0 ≤ r.m_AudioBufferBytesFilled → 0 ≤ audioSize →
        audioSize ≤ r.m_AudioBufferSize - r.m_AudioBufferBytesFilled →
        audioSize ≤ audioBuffer.length →
        bufferInUse r beginFrame = some buf → (buf.length : Int) = r.m_AudioBufferSize →
        ∃ r1 t1, submitAudio r audioBuffer audioSize beginFrame = some (r1, t1, true)) := by
  refine ⟨?_, ?_, ?_, ?_⟩
  · intro r audioBuffer audioSize hz
    simp only [submitAudio, hz, if_true]
  · intro r r2 audioBuffer audioSize beginFrame t2 b2 h
    cases beginFrame with
    | none =>
      simp only [submitAudio, if_true, Option.some.injEq, Prod.mk.injEq] at h
      obtain ⟨_, rfl, _⟩ := h
      rfl
    | some buf =>
      simp only [submitAudio, if_true] at h
      split at h
      · exact absurd h (by simp)
      · simp only [Option.some.injEq, Prod.mk.injEq] at h
        obtain ⟨_, rfl, _⟩ := h
        rfl
  · intro r r1 audioBuffer audioSize beginFrame t1 b h
    exact (submitAudio_some r r1 audioBuffer audioSize beginFrame t1 b h).1
  · intro r audioBuffer audioSize beginFrame buf h0 hn hfit hsrc hbuf hlen
    exact ⟨_, _, submitAudio_step r audioBuffer audioSize beginFrame buf h0 hn hfit hsrc hbuf hlen⟩

/-- C8, witness: a prepared renderer that is refused a buffer returns true and keeps its fill
offset at 0. -/
theorem submitAudio_beginFrame_failure_witness :
    submitAudio (prepared 1 0 ⟨48000, 1⟩ (some 1) (some 2)) [1, 2, 3, 4] 4 none
      = some ({ prepared 1 0 ⟨48000, 1⟩ (some 1) (some 2) with
                  m_AudioBuffer := none, m_AudioBufferBytesFilled := 0 },
              [Call.SLAudio_BeginFrame (some 2) false,
               Call.SDL_LogError "SLAudio_BeginFrame() failed"], true) :=
  submitAudio_beginFrame_failure.1 (prepared 1 0 ⟨48000, 1⟩ (some 1) (some 2)) [1, 2, 3, 4] 4
    (by decide)

/-- C6: `slLogCallback` forwards the message with a priority that depends on the log level
alone, whatever the context and the message: error gives `SDL_LOG_PRIORITY_ERROR`, warning
`SDL_LOG_PRIORITY_WARN`, info `SDL_LOG_PRIORITY_INFO`, and debug and every value that is not one
of the four enumerators `SDL_LOG_PRIORITY_DEBUG`. -/
theorem slLogCallback_priority (context : Option Nat) (message : String) :
    slLogCallback context ESLAudioLog.k_ESLAudioLogError message
        = Call.SDL_LogMessage SDL_LogPriority.SDL_LOG_PRIORITY_ERROR "SLAudio: %s" message
    ∧ slLogCallback context ESLAudioLog.k_ESLAudioLogWarning message
        = Call.SDL_LogMessage SDL_LogPriority.SDL_LOG_PRIORITY_WARN "SLAudio: %s" message
    ∧ slLogCallback context ESLAudioLog.k_ESLAudioLogInfo message
        = Call.SDL_LogMessage SDL_LogPriority.SDL_LOG_PRIORITY_INFO "SLAudio: %s" message
    ∧ slLogCallback context ESLAudioLog.k_ESLAudioLogDebug message
        = Call.SDL_LogMessage SDL_LogPriority.SDL_LOG_PRIORITY_DEBUG "SLAudio: %s" message
    ∧ ∀ raw : Int, slLogCallback context (ESLAudioLog.unrecognized raw) message
        = Call.SDL_LogMessage SDL_LogPriority.SDL_LOG_PRIORITY_DEBUG "SLAudio: %s" message := by
  refine ⟨rfl, rfl, rfl, rfl, fun _ => rfl⟩

/-- C7: `prepareForPlayback` returns false exactly when `SLAudio_CreateContext` or
`SLAudio_CreateStream` answers null, and true otherwise; when the context cannot be created the
call trace holds no `SLAudio_CreateStream` call, the stream member is left as it was, and after
the constructor that is null. -/
theorem prepareForPlayback_result (SAMPLES_PER_FRAME : Int) (r : SLAudioRenderer)
    (opusConfig : OPUS_MULTISTREAM_CONFIGURATION) (createContext createStream : Option Handle) :
    ((prepareForPlayback SAMPLES_PER_FRAME r opusConfig createContext createStream).2.2 = false
        ↔ (createContext = none ∨ createStream = none))
    ∧ ((prepareForPlayback SAMPLES_PER_FRAME r opusConfig createContext createStream).2.2 = true
        ↔ (createContext ≠ none ∧ createStream ≠ none))
    ∧ (prepareForPlayback SAMPLES_PER_FRAME r opusConfig none createStream).2.1
        = [Call.SLAudio_CreateContext none, Call.SDL_LogError "SLAudio_CreateContext() failed"]
    ∧ (prepareForPlayback SAMPLES_PER_FRAME r opusConfig none createStream).1.m_AudioStream
        = r.m_AudioStream
    ∧ ∀ indeterminate : Int,
        (prepareForPlayback SAMPLES_PER_FRAME (SLAudioRenderer_ctor indeterminate).1 opusConfig
          none createStream).1.m_AudioStream = none := by
  refine ⟨?_, ?_, rfl, rfl, fun _ => rfl⟩
  · cases createContext <;> cases createStream <;> simp [prepareForPlayback]
  · cases createContext <;> cases createStream <;> simp [prepareForPlayback]

/-- C9, counterexample: after a successful preparation with a capacity of 3840 bytes, two calls
of size 0 (which does not exceed the remaining capacity) each obtain a buffer from
`SLAudio_BeginFrame` and neither submits: the second buffer is begun while the first is
outstanding. -/
theorem single_slot_counterexample :
    Fits 0 (prepared 240 0 ⟨48000, 2⟩ (some 1) (some 2))
      [SubmitCall.mk [] 0 (some (List.replicate 3840 0)),
       SubmitCall.mk [] 0 (some (List.replicate 3840 0))]
    ∧ ∃ r1 r2 td,
        submitAll (prepared 240 0 ⟨48000, 2⟩ (some 1) (some 2))
            [SubmitCall.mk [] 0 (some (List.replicate 3840 0)),
             SubmitCall.mk [] 0 (some (List.replicate 3840 0))]
          = some (r1, [Call.SLAudio_BeginFrame (some 2) true,
                       Call.SLAudio_BeginFrame (some 2) true])
        ∧ SLAudioRenderer_dtor r1 = some (r2, td)
        ∧ slotRun false
            ((SLAudioRenderer_ctor 0).2
              ++ (prepareForPlayback 240 (SLAudioRenderer_ctor 0).1 ⟨48000, 2⟩ (some 1)
                    (some 2)).2.1
              ++ [Call.SLAudio_BeginFrame (some 2) true, Call.SLAudio_BeginFrame (some 2) true]
              ++ td) = none := by
  have hcap : (prepared 240 0 ⟨48000, 2⟩ (some 1) (some 2)).m_AudioBufferSize = 3840 := by
    simp [prepared, prepareForPlayback, SLAudioRenderer_ctor, toInt32, sizeof_short,
      FRAMES_PER_SUBMISSION]
  have hlen : ((List.replicate 3840 (0 : Byte)).length : Int)
      = (prepared 240 0 ⟨48000, 2⟩ (some 1) (some 2)).m_AudioBufferSize := by
    rw [List.length_replicate, hcap]; rfl
  obtain ⟨hfits, hrun⟩ := submitAll_zero_sizes (prepared 240 0 ⟨48000, 2⟩ (some 1) (some 2))
    (List.replicate 3840 0) rfl (by rw [hcap]; decide) hlen
  refine ⟨hfits, _, _, _, hrun, dtor_of_empty _ rfl, ?_⟩
  rw [slotRun_append]
  rfl

/-- C9, amended: for every sequence of `submitAudio` calls whose sizes are positive and do not
exceed the remaining capacity, followed by the destructor, both run to the end and in the whole
call trace (constructor, preparation, the calls, teardown) no buffer is begun while another is
outstanding, no frame is submitted while none is outstanding, and none is outstanding at the
end. -/
theorem single_slot (SAMPLES_PER_FRAME indeterminate : Int)
    (opusConfig : OPUS_MULTISTREAM_CONFIGURATION) (createContext createStream : Option Handle)
    (calls : List SubmitCall)
    (hfits : Fits 1 (prepared SAMPLES_PER_FRAME indeterminate opusConfig createContext
      createStream) calls) :
    ∃ r1 tr r2 td,
      submitAll (prepared SAMPLES_PER_FRAME indeterminate opusConfig createContext createStream)
        calls = some (r1, tr)
      ∧ SLAudioRenderer_dtor r1 = some (r2, td)
      ∧ slotRun false
          ((SLAudioRenderer_ctor indeterminate).2
            ++ (prepareForPlayback SAMPLES_PER_FRAME (SLAudioRenderer_ctor indeterminate).1
                  opusConfig createContext createStream).2.1
            ++ tr ++ td) = some false := by
  obtain ⟨hwf, hzero⟩ := wellFormed_prepared SAMPLES_PER_FRAME indeterminate opusConfig
    createContext createStream
  obtain ⟨r1, tr, hrun, hwf1, _, _, _, hslot⟩ :=
    submitAll_runs 1 (by decide) calls _ hwf hfits
  have hslot1 := hslot (le_refl 1)
  rw [hzero] at hslot1
  have hsetup : slotRun false
      ((SLAudioRenderer_ctor indeterminate).2
        ++ (prepareForPlayback SAMPLES_PER_FRAME (SLAudioRenderer_ctor indeterminate).1
              opusConfig createContext createStream).2.1) = some false := by
    cases createContext <;> cases createStream <;> rfl
  have hdtor : ∃ r2 td, SLAudioRenderer_dtor r1 = some (r2, td)
      ∧ slotRun (decide (r1.m_AudioBufferBytesFilled ≠ 0)) td = some false := by
    by_cases hz : r1.m_AudioBufferBytesFilled = 0
    · refine ⟨_, _, dtor_of_empty r1 hz, ?_⟩
      rw [slotRun_releaseCalls]
      simp [hz]
    · obtain ⟨buf, hbuf, hlen⟩ := hwf1.2 hz
      refine ⟨_, _, dtor_of_held r1 buf hz hbuf hlen, ?_⟩
      simp [hz, slotRun, slotRun_releaseCalls]
  obtain ⟨r2, td, hd, hslot2⟩ := hdtor
  refine ⟨r1, tr, r2, td, hrun, hd, ?_⟩
  rw [slotRun_append, slotRun_append, hsetup]
  simp only [Option.bind_eq_bind, Option.some_bind]
  have h00 : decide ((0 : Int) ≠ 0) = false := by decide
  rw [h00] at hslot1
  rw [hslot1]
  exact hslot2

/-- C9, witness: two calls of 4 bytes into a capacity of 8 bytes, then teardown. -/
theorem single_slot_witness :
    ∃ r1 tr r2 td,
      submitAll (prepared 1 0 ⟨48000, 1⟩ (some 1) (some 2))
          [SubmitCall.mk [1, 2, 3, 4] 4 (some [0, 0, 0, 0, 0, 0, 0, 0]),
           SubmitCall.mk [5, 6, 7, 8] 4 none] = some (r1, tr)
      ∧ SLAudioRenderer_dtor r1 = some (r2, td)
      ∧ slotRun false
          ((SLAudioRenderer_ctor 0).2
            ++ (prepareForPlayback 1 (SLAudioRenderer_ctor 0).1 ⟨48000, 1⟩ (some 1)
                  (some 2)).2.1
            ++ tr ++ td) = some false :=
  single_slot 1 0 ⟨48000, 1⟩ (some 1) (some 2)
    [SubmitCall.mk [1, 2, 3, 4] 4 (some [0, 0, 0, 0, 0, 0, 0, 0]),
     SubmitCall.mk [5, 6, 7, 8] 4 none]
    (by simp [Fits, prepared, prepareForPlayback, SLAudioRenderer_ctor, toInt32, sizeof_short,
          FRAMES_PER_SUBMISSION, submitAudio, accumulate, memcpy])

/-- C10: a `submitAudio` call within the contract writes the `audioSize` input bytes into the
buffer at the fill offset and leaves every other byte of the buffer as it was; when the fill
offset after the copy is below the capacity nothing is submitted and the buffer and the offset
are kept, and when it reaches the capacity the buffer is submitted and the offset is 0.  For
every sequence of calls after a successful preparation that obtain their buffers and whose sizes
lie between 0 and the remaining capacity, the frames submitted are exactly the ones the
specification describes: each is the concatenation, in order, of the chunks handed over since
the previous submission; the bytes still held at the end are the chunks after the last one. -/
theorem submitAudio_copies :
    (∀ (r : SLAudioRenderer) (audioBuffer : List Byte) (audioSize : Int)
        (beginFrame : Option (List Byte)) (buf : List Byte),
        0 ≤ r.m_AudioBufferBytesFilled → 0 ≤ audioSize →
        audioSize ≤ r.m_AudioBufferSize - r.m_AudioBufferBytesFilled →
        audioSize ≤ audioBuffer.length →
        bufferInUse r beginFrame = some buf → (buf.length : Int) = r.m_AudioBufferSize →
        ∃ r1 t1 out, submitAudio r audioBuffer audioSize beginFrame = some (r1, t1, true)
          ∧ r1.m_AudioBuffer = some out
          ∧ out.length = buf.length
          ∧ (∀ i, i < audioSize.toNat →
              out[r.m_AudioBufferBytesFilled.toNat + i]? = audioBuffer[i]?)
          ∧ (∀ j, (j < r.m_AudioBufferBytesFilled.toNat
                ∨ r.m_AudioBufferBytesFilled.toNat + audioSize.toNat ≤ j) → out[j]? = buf[j]?)
          ∧ (r.m_AudioBufferBytesFilled + audioSize < r.m_AudioBufferSize →
              submittedFrames t1 = []
              ∧ r1.m_AudioBufferBytesFilled = r.m_AudioBufferBytesFilled + audioSize)
          ∧ (r.m_AudioBufferBytesFilled + audioSize = r.m_AudioBufferSize →
              submittedFrames t1 = [out] ∧ r1.m_AudioBufferBytesFilled = 0))
    ∧ (∀ (SAMPLES_PER_FRAME indeterminate : Int) (opusConfig : OPUS_MULTISTREAM_CONFIGURATION)
        (context stream : Handle) (calls : List SubmitCall),
        (∀ c ∈ calls, c.beginFrame ≠ none) →
        Fits 0 (prepared SAMPLES_PER_FRAME indeterminate opusConfig (some context)
          (some stream)) calls →
        ∃ r1 tr,
          submitAll (prepared SAMPLES_PER_FRAME indeterminate opusConfig (some context)
            (some stream)) calls = some (r1, tr)
          ∧ submittedFrames tr
              = specFrames (prepared SAMPLES_PER_FRAME indeterminate opusConfig (some context)
                  (some stream)).m_AudioBufferSize [] (calls.map SubmitCall.chunk)
          ∧ (submittedFrames tr).flatten ++ heldBytes r1
              = (calls.map SubmitCall.chunk).flatten) := by
  constructor
  · intro r audioBuffer audioSize beginFrame buf h0 hn hfit hsrc hbuf hlen
    have hdst : r.m_AudioBufferBytesFilled + audioSize ≤ buf.length := by omega
    refine ⟨_, _, _, submitAudio_step r audioBuffer audioSize beginFrame buf h0 hn hfit hsrc
      hbuf hlen, rfl,
      copied_length buf audioBuffer _ _ h0 hn hdst hsrc,
      fun i hi => copied_inside buf audioBuffer _ _ h0 hn hdst hsrc i hi,
      fun j hj => copied_outside buf audioBuffer _ _ h0 hn hdst hsrc j hj, ?_, ?_⟩
    · intro hlt
      have hne : r.m_AudioBufferBytesFilled + audioSize ≠ r.m_AudioBufferSize := by omega
      constructor
      · rw [if_neg hne]
        by_cases hz : r.m_AudioBufferBytesFilled = 0 <;> simp [hz, submittedFrames]
      · dsimp only
        rw [if_neg hne]
    · intro hfull
      constructor
      · rw [if_pos hfull]
        by_cases hz : r.m_AudioBufferBytesFilled = 0
        · rw [if_pos hz]; rfl
        · rw [if_neg hz]; rfl
      · dsimp only
        rw [if_pos hfull]
  · intro SAMPLES_PER_FRAME indeterminate opusConfig context stream calls hbegin hfits
    obtain ⟨hwf, hzero⟩ := wellFormed_prepared SAMPLES_PER_FRAME indeterminate opusConfig
      (some context) (some stream)
    obtain ⟨r1, tr, hrun, _, _, hframes, _, _, hjoin, _⟩ :=
      submitAll_fits calls _ hwf hfits hbegin
    rw [heldBytes_of_zero _ hzero] at hframes hjoin
    exact ⟨r1, tr, hrun, hframes, by simpa using hjoin⟩

/-- C10, witness: with bytes 1, 2, 3 held in a buffer of 8, a call with the two bytes 4, 5
writes them at offsets 3 and 4, keeps the rest and submits nothing. -/
theorem submitAudio_copies_witness :
    submitAudio
        { m_AudioContext := some 1, m_AudioStream := some 2,
          m_AudioBuffer := some [1, 2, 3, 9, 9, 9, 9, 9],
          m_AudioBufferSize := 8, m_AudioBufferBytesFilled := 3 } [4, 5] 2 none
      = some ({ m_AudioContext := some 1, m_AudioStream := some 2,
                m_AudioBuffer := some [1, 2, 3, 4, 5, 9, 9, 9],
                m_AudioBufferSize := 8, m_AudioBufferBytesFilled := 5 }, [], true)
    ∧ ∃ r1 t1 out,
        submitAudio
            { m_AudioContext := some 1, m_AudioStream := some 2,
              m_AudioBuffer := some [1, 2, 3, 9, 9, 9, 9, 9],
              m_AudioBufferSize := 8, m_AudioBufferBytesFilled := 3 } [4, 5] 2 none
          = some (r1, t1, true)
        ∧ r1.m_AudioBuffer = some out
        ∧ out.length = 8 := by
  refine ⟨by decide, ?_⟩
  obtain ⟨r1, t1, out, hrun, hout, hlen, _⟩ := submitAudio_copies.1
    { m_AudioContext := some 1, m_AudioStream := some 2,
      m_AudioBuffer := some [1, 2, 3, 9, 9, 9, 9, 9],
      m_AudioBufferSize := 8, m_AudioBufferBytesFilled := 3 } [4, 5] 2 none
    [1, 2, 3, 9, 9, 9, 9, 9] (by decide) (by decide) (by decide) (by decide) (by decide)
    (by decide)
  exact ⟨r1, t1, out, hrun, hout, hlen⟩
